import Mathlib

/-!
The flow page-graph player (`src/app.js`)

A shallow embedding of the navigation state machine (`renderPage`, `goNext`,
`goBack`, `restart`, the start render of `init`) and of the document validator
(`validateData`), followed by the properties of the specification that concern
them.

Modelling conventions.

* JavaScript values that the code inspects are `Val`.  Numbers are observed only
  through truthiness and `Map` key equality, so they are integers here; objects
  and arrays are observed only through identity, so they are a reference number.
* The module variables `currentId` and `historyStack` are the two fields of
  `State`; `DATA` and `PAGES` are assigned once in `init` and are passed as
  arguments.
* `showError` / `clearError` only write the error box.  Every operation starts
  with `clearError()`, so the content of the box after a call is the error that
  call signalled: operations return `State × Option Msg`.
* The checked radio button read by `getSelectedChoiceIndex` is the argument
  `sel : Option Int` of `goNext` (`none`: nothing is checked).
* Rendering (`title`, `text`, `label`, breadcrumb, buttons) does not write
  `currentId` or `historyStack` and is left out.
-/

namespace Flow

/-! ## Values -/

/-- A JavaScript value as far as the program distinguishes values. -/
inductive Val where
  | undefined
  | null
  | bool (b : Bool)
  | num (n : Int)
  | str (s : String)
  | obj (ref : Nat)
  deriving DecidableEq, Repr

/-- Truthiness: what `!v` and `v || w` test. -/
def Val.truthy : Val → Bool
  | .undefined => false
  | .null => false
  | .bool b => b
  | .num n => decide (n ≠ 0)
  | .str s => decide (s ≠ "")
  | .obj _ => true

/-- The test `typeof v === "string"`. -/
def Val.isString : Val → Bool
  | .str _ => true
  | _ => false

/-- The string `s` when `v && typeof v === "string"` holds for `v`, the negation
of the guard `!v || typeof v !== "string"` used for ids and for `next`. -/
def Val.usableString? (v : Val) : Option String :=
  if v.truthy && v.isString then
    match v with
    | .str s => some s
    | _ => none
  else none

/-- The expression `v || w`. -/
def Val.or (v w : Val) : Val := if v.truthy then v else w

/-- The expression `v ?? w`. -/
def Val.nullish (v w : Val) : Val :=
  match v with
  | .undefined => w
  | .null => w
  | _ => v

/-! ## Document -/

/-- One element `c` of a `choices` array, reduced to the value of `c?.next`
(`undefined` when `c` is not an object or has no `next`). -/
structure Choice where
  next : Val
  deriving DecidableEq, Repr

/-- A page object: the properties `id`, `type` and `choices`.  `choices` is
`none` when `Array.isArray(page.choices)` is false. -/
structure Page where
  id : Val
  type : Val
  choices : Option (List Choice)
  deriving DecidableEq, Repr

/-- One element of `data.pages`: JSON `null`, a boolean, number or string (only
its truthiness is observed), or an object. -/
inductive Entry where
  | null
  | prim (truthy : Bool)
  | object (p : Page)
  deriving DecidableEq, Repr

/-- Truthiness of an element of `data.pages`. -/
def Entry.truthy : Entry → Bool
  | .null => false
  | .prim t => t
  | .object _ => true

/-- The property read `p.id` (primitives have no such property). -/
def Entry.id : Entry → Val
  | .object p => p.id
  | _ => .undefined

/-- The property read `page.type`. -/
def Entry.type : Entry → Val
  | .object p => p.type
  | _ => .undefined

/-- The expression `Array.isArray(page.choices) ? page.choices : []`. -/
def Entry.choiceList : Entry → List Choice
  | .object p => p.choices.getD []
  | _ => []

/-- The parsed document when it is an object: `data.startPageId` and
`data.pages` (`none` when `Array.isArray(data.pages)` is false). -/
structure Data where
  startPageId : Val
  pages : Option (List Entry)
  deriving DecidableEq, Repr

/-- The parsed document: `nonObject` when `!data || typeof data !== "object"`. -/
inductive Doc where
  | nonObject
  | object (d : Data)
  deriving DecidableEq, Repr

/-! ## The page map -/

/-- A JavaScript `Map` from ids to page entries, in insertion order. -/
abbrev PageMap := List (Val × Entry)

/-- The call `m.set(k, v)`: an existing key keeps its position and gets the new value. -/
def mapSet (m : PageMap) (k : Val) (v : Entry) : PageMap :=
  if m.any (fun kv => decide (kv.1 = k)) then
    m.map (fun kv => if kv.1 = k then (k, v) else kv)
  else m ++ [(k, v)]

/-- The call `m.get(k)`. -/
def mapGet (m : PageMap) (k : Val) : Option Entry :=
  (m.find? (fun kv => decide (kv.1 = k))).map (fun kv => kv.2)

/-- The expression `new Map(data.pages.map(p => [p.id, p]))` of `init`; `none`
when reading `p.id` throws because `p` is `null`. -/
def buildPages (pages : List Entry) : Option PageMap :=
  if pages.any (fun e => decide (e = Entry.null)) then none
  else some (pages.foldl (fun m e => mapSet m e.id e) [])

/-- The function `getPage`: `PAGES.get(id) || null`. -/
def getPage (PAGES : PageMap) (id : Val) : Option Entry :=
  match mapGet PAGES id with
  | some e => if e.truthy then some e else none
  | none => none

/-- The expression `(page.type || "question") === "result"`. -/
def isResult (page : Entry) : Bool :=
  decide (page.type.or (.str "question") = .str "result")

/-! ## Navigation -/

/-- The module variables `currentId` and `historyStack`. -/
structure State where
  currentId : Val
  historyStack : List Val
  deriving DecidableEq, Repr

/-- The messages passed to `showError` by the navigation code. -/
inductive Msg where
  /-- Message "ページが見つかりません: id" of `renderPage`: unknown page, unresolvable start. -/
  | pageNotFound (id : Val)
  /-- Message "このページには選択肢がありません。" of `goNext`: no choices available. -/
  | noChoices
  /-- Message "選択してください。" of `goNext`: nothing is selected. -/
  | selectPlease
  /-- Message "遷移先(next)が設定されていません。" of `goNext`: the selected choice has no usable next. -/
  | nextMissing
  /-- Message "開始ページが特定できません。" of `init`: no start id. -/
  | noStart
  deriving DecidableEq, Repr

/-- The state before `init`: `currentId = null`, `historyStack = []`. -/
def State.initial : State := ⟨.null, []⟩

/-- The function `renderPage(id)`: an unknown id shows an error and returns
before `currentId = id`. -/
def renderPage (PAGES : PageMap) (id : Val) (st : State) : State × Option Msg :=
  match getPage PAGES id with
  | none => (st, some (.pageNotFound id))
  | some _ => ({ st with currentId := id }, none)

/-- The expression `choices[idx]?.next` for a finite number `idx`. -/
def nextOf (choices : List Choice) (idx : Int) : Val :=
  if 0 ≤ idx then
    match choices.get? idx.toNat with
    | some c => c.next
    | none => .undefined
  else .undefined

/-- The function `goNext`, with the result of `getSelectedChoiceIndex()` as `sel`. -/
def goNext (PAGES : PageMap) (sel : Option Int) (st : State) : State × Option Msg :=
  match getPage PAGES st.currentId with
  | none => (st, none)
  | some page =>
    if isResult page then (st, none)
    else
      let choices := page.choiceList
      if choices.length = 0 then (st, some .noChoices)
      else
        match sel with
        | none => (st, some .selectPlease)
        | some idx =>
          match (nextOf choices idx).usableString? with
          | none => (st, some .nextMissing)
          | some nextId =>
            renderPage PAGES (.str nextId)
              { st with historyStack := st.historyStack ++ [st.currentId] }

/-- The function `goBack`: pops the last id and renders it. -/
def goBack (PAGES : PageMap) (st : State) : State × Option Msg :=
  if st.historyStack.length = 0 then (st, none)
  else
    let prevId := st.historyStack.getLast?.getD .undefined
    renderPage PAGES prevId { st with historyStack := st.historyStack.dropLast }

/-- The function `restart`: empties the history, then renders `DATA.startPageId`. -/
def restart (DATA : Data) (PAGES : PageMap) (st : State) : State × Option Msg :=
  renderPage PAGES DATA.startPageId { st with historyStack := [] }

/-- The expression `data.startPageId || (data.pages[0]?.id ?? null)` of `init`. -/
def startOf (DATA : Data) : Val :=
  DATA.startPageId.or
    (match (DATA.pages.getD []).head? with
     | some e => e.id.nullish .null
     | none => .null)

/-- The end of `init`: the start id is computed, a falsy one is reported, any
other is rendered. -/
def startRender (DATA : Data) (PAGES : PageMap) (st : State) : State × Option Msg :=
  if (startOf DATA).truthy then renderPage PAGES (startOf DATA) st
  else (st, some .noStart)

/-- The three operations wired to the buttons. -/
inductive Action where
  | goNext (sel : Option Int)
  | goBack
  | restart
  deriving DecidableEq, Repr

/-- One call of an operation. -/
def step (DATA : Data) (PAGES : PageMap) (st : State) : Action → State × Option Msg
  | .goNext sel => goNext PAGES sel st
  | .goBack => goBack PAGES st
  | .restart => restart DATA PAGES st

/-- The state after a finite sequence of calls. -/
def run (DATA : Data) (PAGES : PageMap) (st : State) (acts : List Action) : State :=
  acts.foldl (fun s a => (step DATA PAGES s a).1) st

/-- The ids that were current in the states before each call of a run, oldest first. -/
def visited (DATA : Data) (PAGES : PageMap) : State → List Action → List Val
  | _, [] => []
  | st, a :: acts => st.currentId :: visited DATA PAGES (step DATA PAGES st a).1 acts

/-- The state `init` leaves behind: the start render from the initial state. -/
def startState (DATA : Data) (PAGES : PageMap) : State :=
  (startRender DATA PAGES State.initial).1

/-- A call of the start render or of one of the three operations. -/
inductive Call where
  | startRender
  | act (a : Action)
  deriving DecidableEq, Repr

/-- One call, the start render included. -/
def stepCall (DATA : Data) (PAGES : PageMap) (st : State) : Call → State × Option Msg
  | .startRender => startRender DATA PAGES st
  | .act a => step DATA PAGES st a

/-- The state after a finite sequence of calls, the start render included. -/
def runCalls (DATA : Data) (PAGES : PageMap) (st : State) (calls : List Call) : State :=
  calls.foldl (fun s c => (stepCall DATA PAGES s c).1) st

/-! ## Validation -/

/-- The messages pushed to `errors` by `validateData`, one constructor per
message text, with the interpolated values as arguments. -/
inductive Diag where
  /-- Message "data.json がオブジェクトではありません。" -/
  | notObject
  /-- Message "startPageId がありません。" -/
  | noStartPageId
  /-- Message "pages が配列ではありません。" -/
  | pagesNotArray
  /-- Message "id を持たないページがあります。" -/
  | missingId
  /-- Message "ページIDが重複しています: id" -/
  | duplicateId (id : String)
  /-- Message "resultノードに choices が存在します（ID: id）。" -/
  | resultHasChoices (id : Val)
  /-- Message "questionノードに choices がありません（ID: id）。" -/
  | deadEnd (id : Val)
  /-- Message "next が未設定です（ID: id / choice#pos）。" -/
  | missingNext (id : Val) (pos : Nat)
  /-- Message "遷移先が存在しません: id -> next" -/
  | danglingNext (id : Val) (next : String)
  /-- Message "startPageId が存在しません: id" -/
  | danglingStart (id : String)
  deriving DecidableEq, Repr

/-- The call `ids.add(s)` on a `Set` kept in insertion order. -/
def setAdd (ids : List String) (s : String) : List String :=
  if s ∈ ids then ids else ids ++ [s]

/-- One iteration of the first loop of `validateData` ("Build map first") on
the pair `(ids, errors)`. -/
def idStep (acc : List String × List Diag) (p : Entry) : List String × List Diag :=
  match p with
  | .null => acc
  | .prim _ => acc
  | .object pg =>
    match pg.id.usableString? with
    | none => (acc.1, acc.2 ++ [.missingId])
    | some s =>
      let errors := if s ∈ acc.1 then acc.2 ++ [.duplicateId s] else acc.2
      (setAdd acc.1 s, errors)

/-- The first loop of `validateData`. -/
def idPass (pages : List Entry) (acc : List String × List Diag) : List String × List Diag :=
  pages.foldl idStep acc

/-- One call of the callback of `choices.forEach` in `validateData`. -/
def choiceStep (ids : List String) (pid : Val) (errors : List Diag) (c : Choice) (idx : Nat) :
    List Diag :=
  match c.next.usableString? with
  | none => errors ++ [.missingNext pid (idx + 1)]
  | some next => if next ∈ ids then errors else errors ++ [.danglingNext pid next]

/-- The loop `choices.forEach((c, idx) => ...)` of `validateData`, from index `idx`. -/
def choiceLoop (ids : List String) (pid : Val) :
    List Choice → Nat → List Diag → List Diag
  | [], _, errors => errors
  | c :: cs, idx, errors => choiceLoop ids pid cs (idx + 1) (choiceStep ids pid errors c idx)

/-- One iteration of the second loop of `validateData` ("Validate links"). -/
def linkStep (ids : List String) (errors : List Diag) (p : Entry) : List Diag :=
  match p with
  | .null => errors
  | .prim _ => errors
  | .object pg =>
    if !pg.id.truthy then errors
    else if isResult (.object pg) then
      match pg.choices with
      | some (_ :: _) => errors ++ [.resultHasChoices pg.id]
      | _ => errors
    else
      let choices := pg.choices.getD []
      let errors1 := if choices.length = 0 then errors ++ [.deadEnd pg.id] else errors
      choiceLoop ids pg.id choices 0 errors1

/-- The second loop of `validateData`. -/
def linkPass (ids : List String) (pages : List Entry) (errors : List Diag) : List Diag :=
  pages.foldl (linkStep ids) errors

/-- The function `validateData`. -/
def validateData (data : Doc) : List Diag :=
  match data with
  | .nonObject => [.notObject]
  | .object d =>
    let errors0 : List Diag :=
      if (d.startPageId.usableString?).isNone then [.noStartPageId] else []
    match d.pages with
    | none => errors0 ++ [.pagesNotArray]
    | some pages =>
      let acc := idPass pages ([], errors0)
      let errors2 := linkPass acc.1 pages acc.2
      match d.startPageId.usableString? with
      | some s => if s ∈ acc.1 then errors2 else errors2 ++ [.danglingStart s]
      | none => errors2

/-- The id of an element of `data.pages` that passes the id check of the first
loop: an object whose `id` is a non-empty string. -/
def Entry.usableId? : Entry → Option String
  | .object pg => pg.id.usableString?
  | _ => none

/-- The ids of the pages that pass the id check of the first loop, in document order. -/
def usableIds (pages : List Entry) : List String :=
  pages.filterMap Entry.usableId?

/-- The ids named by the duplicate-id diagnostics of a diagnostic list, in order. -/
def duplicateIds (errors : List Diag) : List String :=
  errors.filterMap (fun d =>
    match d with
    | .duplicateId s => some s
    | _ => none)

/-! ## Example documents -/

/-- The value of `PAGES` after `init`: the map built from `data.pages`, or the
empty map it was created with when `data.pages` is no array or building throws. -/
def pagesOf (d : Data) : PageMap :=
  (buildPages (d.pages.getD [])).getD []

/-- A page without `type` (a question page) whose choices lead to `nexts`. -/
def questionPage (id : String) (nexts : List String) : Entry :=
  .object ⟨.str id, .undefined, some (nexts.map (fun n => ⟨.str n⟩))⟩

/-- A page of type "result" without `choices`. -/
def resultPage (id : String) : Entry :=
  .object ⟨.str id, .str "result", none⟩

/-- Scenario 1 of the specification: `start` (question, one choice to `end1`), `end1` (result). -/
def scenarioDoc : Data :=
  ⟨.str "start", some [questionPage "start" ["end1"], resultPage "end1"]⟩

/-- Two question pages that lead to each other. -/
def cycleDoc : Data :=
  ⟨.str "a", some [questionPage "a" ["b"], questionPage "b" ["a"]]⟩

/-- A question page whose only choice names a page that does not exist. -/
def danglingDoc : Data :=
  ⟨.str "a", some [questionPage "a" ["zz"]]⟩

/-- A second document with a dangling `next`, reached after one valid step. -/
def lateDanglingDoc : Data :=
  ⟨.str "p", some [questionPage "p" ["q"], questionPage "q" ["nowhere"]]⟩

/-- Scenario 3 of the specification: no `startPageId`, first page `intro`. -/
def noStartDoc : Data :=
  ⟨.undefined, some [questionPage "intro" ["end"], resultPage "end"]⟩

/-- A question page with two choices (scenario 6 of the specification). -/
def twoChoiceDoc : Data :=
  ⟨.str "m", some [questionPage "m" ["x", "y"], resultPage "x", resultPage "y"]⟩

/-- A result page that carries a choice. -/
def resultWithChoicesDoc : Data :=
  ⟨.str "r", some [.object ⟨.str "r", .str "result", some [⟨.str "r"⟩]⟩]⟩

/-- Scenario 5 of the specification: a question page with `choices: []`. -/
def deadEndDoc : Data :=
  ⟨.str "only", some [questionPage "only" []]⟩

/-- Scenario 4 of the specification: two pages sharing the id `dup`. -/
def dupDoc : Data :=
  ⟨.str "dup", some [resultPage "dup", resultPage "dup"]⟩


/-- A state in which `currentId` is unset (`null`) or names a page that `getPage`
finds, and every id of `historyStack` names a page that `getPage` finds. -/
def Resolves (PAGES : PageMap) (st : State) : Prop :=
  (st.currentId = .null ∨ (getPage PAGES st.currentId).isSome = true) ∧
    ∀ id ∈ st.historyStack, (getPage PAGES id).isSome = true

/-! ## Lemmas on the navigation operations -/

theorem usableString_str (n : String) (hn : n ≠ "") : (Val.str n).usableString? = some n := by
  simp [Val.usableString?, Val.truthy, Val.isString, hn]

theorem usableString_eq_some {v : Val} {s : String} (h : v.usableString? = some s) :
    v = .str s ∧ s ≠ "" := by
  cases v <;> simp [Val.usableString?, Val.truthy, Val.isString] at h
  obtain ⟨h1, h2⟩ := h
  subst h2
  exact ⟨rfl, h1⟩

theorem renderPage_found (PAGES : PageMap) (id : Val) (st : State) (page : Entry)
    (h : getPage PAGES id = some page) :
    renderPage PAGES id st = (⟨id, st.historyStack⟩, none) := by
  simp [renderPage, h]

theorem renderPage_unknown (PAGES : PageMap) (id : Val) (st : State)
    (h : getPage PAGES id = none) :
    renderPage PAGES id st = (st, some (.pageNotFound id)) := by
  simp [renderPage, h]

theorem renderPage_history (PAGES : PageMap) (id : Val) (st : State) :
    (renderPage PAGES id st).1.historyStack = st.historyStack := by
  unfold renderPage
  cases getPage PAGES id <;> rfl

theorem nextOf_out_of_range (choices : List Choice) (idx : Int)
    (h : idx < 0 ∨ (choices.length : Int) ≤ idx) : nextOf choices idx = .undefined := by
  unfold nextOf
  split
  · next h0 =>
    have hlen : choices.length ≤ idx.toNat := by omega
    rw [List.get?_eq_none.mpr hlen]
  · rfl

theorem goNext_commit (PAGES : PageMap) (st : State) (page : Entry) (idx : Int) (n : String)
    (hpage : getPage PAGES st.currentId = some page) (hq : isResult page = false)
    (hlen : page.choiceList.length ≠ 0)
    (hnext : nextOf page.choiceList idx = .str n) (hn : n ≠ "") :
    goNext PAGES (some idx) st =
      renderPage PAGES (.str n) ⟨st.currentId, st.historyStack ++ [st.currentId]⟩ := by
  simp [goNext, hpage, hq, hlen, hnext, usableString_str n hn]

theorem goBack_push (PAGES : PageMap) (c x : Val) (h : List Val) (page : Entry)
    (hpage : getPage PAGES c = some page) :
    goBack PAGES ⟨x, h ++ [c]⟩ = (⟨c, h⟩, none) := by
  simp [goBack, renderPage, hpage]

theorem step_history_sublist (DATA : Data) (PAGES : PageMap) (st : State) (a : Action) :
    (step DATA PAGES st a).1.historyStack.Sublist (st.historyStack ++ [st.currentId]) := by
  cases a with
  | goNext sel =>
    have hpre : st.historyStack.Sublist (st.historyStack ++ [st.currentId]) :=
      List.sublist_append_left _ _
    simp only [step, goNext]
    split
    · exact hpre
    · split
      · exact hpre
      · split
        · exact hpre
        · split
          · exact hpre
          · split
            · exact hpre
            · rw [renderPage_history]
  | goBack =>
    simp only [step, goBack]
    split
    · exact List.sublist_append_left _ _
    · rw [renderPage_history]
      exact (List.dropLast_sublist _).trans (List.sublist_append_left _ _)
  | restart =>
    simp only [step, restart]
    rw [renderPage_history]
    exact List.nil_sublist _

theorem run_history_sublist (DATA : Data) (PAGES : PageMap) (acts : List Action) :
    ∀ st : State, (run DATA PAGES st acts).historyStack.Sublist
      (st.historyStack ++ visited DATA PAGES st acts) := by
  induction acts with
  | nil => intro st; simp [run, visited]
  | cons a acts ih =>
    intro st
    have h1 := ih (step DATA PAGES st a).1
    have h2 := step_history_sublist DATA PAGES st a
    have h3 := h1.trans (List.Sublist.append h2 (List.Sublist.refl _))
    simpa [run, visited] using h3

theorem startState_history (DATA : Data) (PAGES : PageMap) :
    (startState DATA PAGES).historyStack = [] := by
  unfold startState startRender
  split
  · rw [renderPage_history]; rfl
  · rfl

theorem renderPage_resolves (PAGES : PageMap) (id : Val) (st : State)
    (hcur : st.currentId = .null ∨ (getPage PAGES st.currentId).isSome = true)
    (hh : ∀ x ∈ st.historyStack, (getPage PAGES x).isSome = true) :
    Resolves PAGES (renderPage PAGES id st).1 := by
  unfold renderPage
  cases hres : getPage PAGES id with
  | none => exact ⟨hcur, hh⟩
  | some page => exact ⟨Or.inr (by simp [hres]), hh⟩

theorem step_resolves (DATA : Data) (PAGES : PageMap) (st : State) (a : Action)
    (h : Resolves PAGES st) : Resolves PAGES (step DATA PAGES st a).1 := by
  obtain ⟨hcur, hh⟩ := h
  cases a with
  | goNext sel =>
    simp only [step, goNext]
    split
    · exact ⟨hcur, hh⟩
    · next page hpage =>
      split
      · exact ⟨hcur, hh⟩
      · split
        · exact ⟨hcur, hh⟩
        · split
          · exact ⟨hcur, hh⟩
          · split
            · exact ⟨hcur, hh⟩
            · apply renderPage_resolves
              · exact hcur
              · intro x hx
                rcases List.mem_append.mp hx with hx | hx
                · exact hh x hx
                · have : x = st.currentId := by simpa using hx
                  simp [this, hpage]
  | goBack =>
    simp only [step, goBack]
    split
    · exact ⟨hcur, hh⟩
    · apply renderPage_resolves
      · exact hcur
      · intro x hx
        exact hh x (List.mem_of_mem_dropLast hx)
  | restart =>
    simp only [step, restart]
    apply renderPage_resolves
    · exact hcur
    · intro x hx
      simp at hx

theorem stepCall_resolves (DATA : Data) (PAGES : PageMap) (st : State) (c : Call)
    (h : Resolves PAGES st) : Resolves PAGES (stepCall DATA PAGES st c).1 := by
  cases c with
  | startRender =>
    simp only [stepCall, startRender]
    split
    · exact renderPage_resolves PAGES _ st h.1 h.2
    · exact h
  | act a => exact step_resolves DATA PAGES st a h

theorem runCalls_resolves (DATA : Data) (PAGES : PageMap) (calls : List Call) :
    ∀ st : State, Resolves PAGES st → Resolves PAGES (runCalls DATA PAGES st calls) := by
  induction calls with
  | nil => intro st h; exact h
  | cons c calls ih =>
    intro st h
    exact ih _ (stepCall_resolves DATA PAGES st c h)


/-! ## Navigation: the claims -/

/-- C1 (counterexample): in `cycleDoc`, a document the validator accepts, choosing
the only choice twice from the start state leads back to page `a` while `a` is on
`historyStack`: the history contains `currentId`. -/
theorem history_contains_current_on_cycle :
    (run cycleDoc (pagesOf cycleDoc) (startState cycleDoc (pagesOf cycleDoc))
        [.goNext (some 0), .goNext (some 0)]).currentId ∈
      (run cycleDoc (pagesOf cycleDoc) (startState cycleDoc (pagesOf cycleDoc))
        [.goNext (some 0), .goNext (some 0)]).historyStack ∧
      validateData (.object cycleDoc) = [] := by
  decide

/-- C1 (amended): in every state reached from the start state by a finite
sequence of `goNext`, `goBack` and `restart` calls, `historyStack` is a
subsequence of the ids that were current in the strictly earlier states of the
run, in visitation order. -/
theorem history_sublist_of_visited (DATA : Data) (PAGES : PageMap) (acts : List Action) :
    (run DATA PAGES (startState DATA PAGES) acts).historyStack.Sublist
      (visited DATA PAGES (startState DATA PAGES) acts) := by
  have h := run_history_sublist DATA PAGES acts (startState DATA PAGES)
  rwa [startState_history, List.nil_append] at h

/-- C2 (failing input): in `lateDanglingDoc`, after one valid step to page `q`,
`goNext` on the choice whose `next` names no page signals the page-not-found
error and still leaves `p, q` on `historyStack`, where `p` alone was before. -/
theorem goNext_error_changes_history :
    goNext (pagesOf lateDanglingDoc) (some 0) ⟨.str "q", [.str "p"]⟩ =
        (⟨.str "q", [.str "p", .str "q"]⟩, some (.pageNotFound (.str "nowhere"))) ∧
      run lateDanglingDoc (pagesOf lateDanglingDoc)
        (startState lateDanglingDoc (pagesOf lateDanglingDoc)) [.goNext (some 0)] =
        ⟨.str "q", [.str "p"]⟩ := by
  decide

/-- C3 (counterexample): in `danglingDoc` the current page `a` is a question page,
index 0 is in range and the selected `next` is the non-empty string `zz`, yet after
`goNext` the current id is not `zz`. -/
theorem goNext_dangling_keeps_current :
    getPage (pagesOf danglingDoc) (.str "a") = some (questionPage "a" ["zz"]) ∧
      isResult (questionPage "a" ["zz"]) = false ∧
      nextOf (questionPage "a" ["zz"]).choiceList 0 = .str "zz" ∧
      (goNext (pagesOf danglingDoc) (some 0) ⟨.str "a", []⟩).1 ≠
        ⟨.str "zz", [] ++ [.str "a"]⟩ := by
  decide

/-- C3 (amended): when the current page is a question page, the index is in range,
the selected `next` is a non-empty string `n` and `n` names a page that `getPage`
finds, `goNext` appends the old `currentId` to `historyStack`, sets
`currentId = n` and signals no error. -/
theorem goNext_success (PAGES : PageMap) (st : State) (page target : Entry) (idx : Int)
    (n : String)
    (hpage : getPage PAGES st.currentId = some page) (hq : isResult page = false)
    (hlo : 0 ≤ idx) (hhi : idx < page.choiceList.length)
    (hnext : nextOf page.choiceList idx = .str n) (hn : n ≠ "")
    (hres : getPage PAGES (.str n) = some target) :
    goNext PAGES (some idx) st =
      (⟨.str n, st.historyStack ++ [st.currentId]⟩, none) := by
  have hlen : page.choiceList.length ≠ 0 := by omega
  rw [goNext_commit PAGES st page idx n hpage hq hlen hnext hn,
    renderPage_found PAGES _ _ target hres]

/-- Witness of C3: scenario 1 of the specification. -/
theorem goNext_success_witness :
    goNext (pagesOf scenarioDoc) (some 0) ⟨.str "start", []⟩ =
      (⟨.str "end1", [] ++ [.str "start"]⟩, none) :=
  goNext_success (pagesOf scenarioDoc) ⟨.str "start", []⟩
    (questionPage "start" ["end1"]) (resultPage "end1") 0 "end1"
    (by decide) (by decide) (by decide) (by decide) (by decide) (by decide) (by decide)

/-- C4: when the current page is a question page, the index is in range and the
selected `next` is a non-empty string, `goNext` followed by `goBack` gives back
the state before `goNext`: the same `currentId` and the same `historyStack`. -/
theorem goNext_goBack_restores (PAGES : PageMap) (st : State) (page : Entry) (idx : Int)
    (n : String)
    (hpage : getPage PAGES st.currentId = some page) (hq : isResult page = false)
    (hlo : 0 ≤ idx) (hhi : idx < page.choiceList.length)
    (hnext : nextOf page.choiceList idx = .str n) (hn : n ≠ "") :
    (goBack PAGES (goNext PAGES (some idx) st).1).1 = st := by
  have hlen : page.choiceList.length ≠ 0 := by omega
  rw [goNext_commit PAGES st page idx n hpage hq hlen hnext hn]
  cases hres : getPage PAGES (.str n) with
  | none =>
    rw [renderPage_unknown PAGES _ _ hres]
    simp [goBack_push PAGES st.currentId st.currentId st.historyStack page hpage]
  | some target =>
    rw [renderPage_found PAGES _ _ target hres]
    simp [goBack_push PAGES st.currentId (.str n) st.historyStack page hpage]

/-- Witness of C4: scenario 2 of the specification. -/
theorem goNext_goBack_restores_witness :
    (goBack (pagesOf scenarioDoc)
      (goNext (pagesOf scenarioDoc) (some 0) ⟨.str "start", []⟩).1).1 =
      ⟨.str "start", []⟩ :=
  goNext_goBack_restores (pagesOf scenarioDoc) ⟨.str "start", []⟩
    (questionPage "start" ["end1"]) 0 "end1"
    (by decide) (by decide) (by decide) (by decide) (by decide) (by decide)

/-- C5 (counterexample): in `noStartDoc` the start id is the id `intro` of the
first page, and `restart` after one step leaves `currentId` at `end`. -/
theorem restart_without_startPageId :
    startOf noStartDoc = .str "intro" ∧
      run noStartDoc (pagesOf noStartDoc) (startState noStartDoc (pagesOf noStartDoc))
        [.goNext (some 0)] = ⟨.str "end", [.str "intro"]⟩ ∧
      (restart noStartDoc (pagesOf noStartDoc) ⟨.str "end", [.str "intro"]⟩).1 =
        ⟨.str "end", []⟩ ∧
      (restart noStartDoc (pagesOf noStartDoc) ⟨.str "end", [.str "intro"]⟩).1 ≠
        ⟨startOf noStartDoc, []⟩ := by
  decide

/-- C5 (amended): for every document whose `startPageId` is present (truthy) and
names a page that `getPage` finds, and every state, `restart` yields an empty
`historyStack` and `currentId` equal to the id the start render uses, and signals
no error; `restart` has no first-page fallback. -/
theorem restart_result (DATA : Data) (PAGES : PageMap) (st : State) (page : Entry)
    (hs : DATA.startPageId.truthy = true)
    (hres : getPage PAGES DATA.startPageId = some page) :
    restart DATA PAGES st = (⟨startOf DATA, []⟩, none) := by
  have hstart : startOf DATA = DATA.startPageId := by
    simp [startOf, Val.or, hs]
  simp [restart, renderPage, hres, hstart]

/-- Witness of C5: `restart` from the result page of scenario 1, one step deep. -/
theorem restart_result_witness :
    restart scenarioDoc (pagesOf scenarioDoc) ⟨.str "end1", [.str "start"]⟩ =
      (⟨startOf scenarioDoc, []⟩, none) :=
  restart_result scenarioDoc (pagesOf scenarioDoc) ⟨.str "end1", [.str "start"]⟩
    (questionPage "start" ["end1"]) (by decide) (by decide)

/-- C8 (counterexample): on the page of `twoChoiceDoc` with two choices, `goNext`
with index 5 signals the missing-next error, not the selection error. -/
theorem goNext_index_five :
    getPage (pagesOf twoChoiceDoc) (.str "m") = some (questionPage "m" ["x", "y"]) ∧
      (questionPage "m" ["x", "y"]).choiceList.length = 2 ∧
      goNext (pagesOf twoChoiceDoc) (some 5) ⟨.str "m", []⟩ =
        (⟨.str "m", []⟩, some .nextMissing) ∧
      (goNext (pagesOf twoChoiceDoc) (some 5) ⟨.str "m", []⟩).2 ≠ some .selectPlease := by
  decide

/-- The selection error of `goNext` has one source, the exit taken when
`getSelectedChoiceIndex()` returns `null`: with an index selected, whatever it is,
`goNext` signals another error or none. -/
theorem goNext_selectPlease_only (PAGES : PageMap) (st : State) (sel : Option Int)
    (h : (goNext PAGES sel st).2 = some .selectPlease) : sel = none := by
  cases sel with
  | none => rfl
  | some idx =>
    exfalso
    revert h
    simp only [goNext]
    split
    · simp
    · split
      · simp
      · split
        · simp
        · split
          · simp
          · unfold renderPage
            split <;> simp

/-- C8 (amended): when the current page is a question page with at least one choice
and the index is outside `0..k-1`, `goNext` signals the missing-next error and
leaves `currentId` and `historyStack` unchanged; the selection error is signalled,
with the state unchanged too, when nothing is selected, and only then: no selected
index, in range or not, gives the selection error. -/
theorem goNext_out_of_range (PAGES : PageMap) (st : State) (page : Entry) (idx : Int)
    (hpage : getPage PAGES st.currentId = some page) (hq : isResult page = false)
    (hk : 1 ≤ page.choiceList.length)
    (hout : idx < 0 ∨ (page.choiceList.length : Int) ≤ idx) :
    goNext PAGES (some idx) st = (st, some .nextMissing) ∧
      goNext PAGES none st = (st, some .selectPlease) ∧
      ∀ sel : Option Int, (goNext PAGES sel st).2 = some .selectPlease ↔ sel = none := by
  have hlen : page.choiceList.length ≠ 0 := by omega
  have hnone : goNext PAGES none st = (st, some .selectPlease) := by
    simp [goNext, hpage, hq, hlen]
  refine ⟨?_, hnone, ?_⟩
  · simp [goNext, hpage, hq, hlen, nextOf_out_of_range _ _ hout, Val.usableString?,
      Val.truthy]
  · intro sel
    constructor
    · exact goNext_selectPlease_only PAGES st sel
    · intro h
      rw [h, hnone]

/-- Witness of C8: index 5, no selection, and the in-range index 0 on a page with
two choices. -/
theorem goNext_out_of_range_witness :
    goNext (pagesOf twoChoiceDoc) (some 5) ⟨.str "m", [.str "m"]⟩ =
        (⟨.str "m", [.str "m"]⟩, some .nextMissing) ∧
      goNext (pagesOf twoChoiceDoc) none ⟨.str "m", [.str "m"]⟩ =
        (⟨.str "m", [.str "m"]⟩, some .selectPlease) ∧
      ((goNext (pagesOf twoChoiceDoc) (some 0) ⟨.str "m", [.str "m"]⟩).2 =
        some .selectPlease ↔ (some 0 : Option Int) = none) :=
  have h := goNext_out_of_range (pagesOf twoChoiceDoc) ⟨.str "m", [.str "m"]⟩
    (questionPage "m" ["x", "y"]) 5 (by decide) (by decide) (by decide) (by decide)
  ⟨h.1, h.2.1, h.2.2 (some 0)⟩

/-- C9: when the current page has resolved type `result`, `goNext` leaves
`currentId` and `historyStack` unchanged and signals no error, for every selection
and whatever choices the page carries. -/
theorem goNext_on_result (PAGES : PageMap) (st : State) (page : Entry) (sel : Option Int)
    (hpage : getPage PAGES st.currentId = some page) (hr : isResult page = true) :
    goNext PAGES sel st = (st, none) := by
  simp [goNext, hpage, hr]

/-- Witness of C9: a result page that carries a choice, with that choice selected. -/
theorem goNext_on_result_witness :
    goNext (pagesOf resultWithChoicesDoc) (some 0) ⟨.str "r", []⟩ = (⟨.str "r", []⟩, none) :=
  goNext_on_result (pagesOf resultWithChoicesDoc) ⟨.str "r", []⟩
    (.object ⟨.str "r", .str "result", some [⟨.str "r"⟩]⟩) (some 0) (by decide) (by decide)

/-- C10: in every state reached from the initial state (`currentId` unset, empty
history) by a finite sequence of start renders, `goNext`, `goBack` and `restart`
calls over a fixed page map, `currentId` is unset or names a page that `getPage`
finds, and every id of `historyStack` names a page that `getPage` finds. -/
theorem reachable_resolves (DATA : Data) (PAGES : PageMap) (calls : List Call) :
    ((runCalls DATA PAGES State.initial calls).currentId = .null ∨
        (getPage PAGES (runCalls DATA PAGES State.initial calls).currentId).isSome = true) ∧
      ∀ id ∈ (runCalls DATA PAGES State.initial calls).historyStack,
        (getPage PAGES id).isSome = true :=
  runCalls_resolves DATA PAGES calls State.initial
    ⟨Or.inl rfl, fun _ hx => absurd hx (List.not_mem_nil _)⟩


/-! ## Validation: lemmas and claims -/

theorem mem_setAdd (ids : List String) (t s : String) :
    s ∈ setAdd ids t ↔ s ∈ ids ∨ s = t := by
  unfold setAdd
  split
  · next h =>
    constructor
    · exact Or.inl
    · rintro (h1 | h1)
      · exact h1
      · exact h1 ▸ h
  · simp

theorem duplicateIds_append (a b : List Diag) :
    duplicateIds (a ++ b) = duplicateIds a ++ duplicateIds b := by
  simp [duplicateIds, List.filterMap_append]

theorem usableIds_cons_some (p : Entry) (ps : List Entry) (t : String)
    (h : p.usableId? = some t) : usableIds (p :: ps) = t :: usableIds ps := by
  simp [usableIds, List.filterMap_cons, h]

theorem usableIds_cons_none (p : Entry) (ps : List Entry)
    (h : p.usableId? = none) : usableIds (p :: ps) = usableIds ps := by
  simp [usableIds, List.filterMap_cons, h]

/-- The ids collected by the first loop: those it started with and the usable ids. -/
theorem mem_idPass (pages : List Entry) :
    ∀ (acc : List String × List Diag) (s : String),
      s ∈ (idPass pages acc).1 ↔ s ∈ acc.1 ∨ s ∈ usableIds pages := by
  induction pages with
  | nil => intro acc s; simp [idPass, usableIds]
  | cons p ps ih =>
    intro acc s
    have hstep : idPass (p :: ps) acc = idPass ps (idStep acc p) := rfl
    rw [hstep, ih]
    cases p with
    | null => simp [idStep, usableIds_cons_none _ _ (rfl : Entry.null.usableId? = none)]
    | prim t => simp [idStep, usableIds_cons_none _ _ (rfl : (Entry.prim t).usableId? = none)]
    | object pg =>
      cases hid : pg.id.usableString? with
      | none =>
        rw [usableIds_cons_none _ _ (show (Entry.object pg).usableId? = none from hid)]
        simp [idStep, hid]
      | some t =>
        rw [usableIds_cons_some _ _ t (show (Entry.object pg).usableId? = some t from hid)]
        simp only [idStep, hid, mem_setAdd, List.mem_cons]
        tauto

/-- The duplicate-id diagnostics of the first loop, counted per id. -/
theorem count_duplicateIds_idPass (pages : List Entry) :
    ∀ (acc : List String × List Diag) (s : String),
      (duplicateIds (idPass pages acc).2).count s =
        (duplicateIds acc.2).count s +
          ((usableIds pages).count s - (if s ∈ acc.1 then 0 else 1)) := by
  induction pages with
  | nil => intro acc s; simp [idPass, usableIds]
  | cons p ps ih =>
    intro acc s
    have hstep : idPass (p :: ps) acc = idPass ps (idStep acc p) := rfl
    rw [hstep, ih]
    cases p with
    | null => simp [idStep, usableIds_cons_none _ _ (rfl : Entry.null.usableId? = none)]
    | prim t => simp [idStep, usableIds_cons_none _ _ (rfl : (Entry.prim t).usableId? = none)]
    | object pg =>
      cases hid : pg.id.usableString? with
      | none =>
        rw [usableIds_cons_none _ _ (show (Entry.object pg).usableId? = none from hid)]
        simp [idStep, hid, duplicateIds_append, duplicateIds]
      | some t =>
        rw [usableIds_cons_some _ _ t (show (Entry.object pg).usableId? = some t from hid)]
        simp only [idStep, hid, mem_setAdd]
        by_cases hst : s = t
        · subst hst
          by_cases hmem : s ∈ acc.1
          · simp [hmem, duplicateIds_append, duplicateIds]
            omega
          · simp [hmem]
        · have hts : ¬ t = s := fun h => hst h.symm
          by_cases hmem : t ∈ acc.1
          · simp [hmem, hst, hts, duplicateIds_append, duplicateIds, List.count_cons]
          · simp [hmem, hst, hts, List.count_cons]

theorem duplicateIds_choiceLoop (ids : List String) (pid : Val) (cs : List Choice) :
    ∀ (idx : Nat) (errors : List Diag),
      duplicateIds (choiceLoop ids pid cs idx errors) = duplicateIds errors := by
  induction cs with
  | nil => intro idx errors; rfl
  | cons c cs ih =>
    intro idx errors
    simp only [choiceLoop]
    rw [ih]
    unfold choiceStep
    split
    · simp [duplicateIds_append, duplicateIds]
    · split
      · rfl
      · simp [duplicateIds_append, duplicateIds]

theorem duplicateIds_linkStep (ids : List String) (errors : List Diag) (p : Entry) :
    duplicateIds (linkStep ids errors p) = duplicateIds errors := by
  cases p with
  | null => rfl
  | prim t => rfl
  | object pg =>
    simp only [linkStep]
    split
    · rfl
    · split
      · split
        · simp [duplicateIds_append, duplicateIds]
        · rfl
      · rw [duplicateIds_choiceLoop]
        split
        · simp [duplicateIds_append, duplicateIds]
        · rfl

theorem duplicateIds_linkPass (ids : List String) (pages : List Entry) :
    ∀ errors : List Diag, duplicateIds (linkPass ids pages errors) = duplicateIds errors := by
  induction pages with
  | nil => intro errors; rfl
  | cons p ps ih =>
    intro errors
    have hstep : linkPass ids (p :: ps) errors = linkPass ids ps (linkStep ids errors p) := rfl
    rw [hstep, ih, duplicateIds_linkStep]

/-- The duplicate-id diagnostics of `validateData` are those of the first loop. -/
theorem duplicateIds_validateData (sp : Val) (pages : List Entry) :
    duplicateIds (validateData (.object ⟨sp, some pages⟩)) =
      duplicateIds (idPass pages
        ([], if (sp.usableString?).isNone then [Diag.noStartPageId] else [])).2 := by
  cases h : sp.usableString? with
  | none =>
    simp only [validateData, h]
    rw [duplicateIds_linkPass]
  | some s =>
    simp only [validateData, h, Option.isNone_some, Bool.false_eq_true, if_false]
    split
    · rw [duplicateIds_linkPass]
    · rw [duplicateIds_append, duplicateIds_linkPass]
      simp [duplicateIds]

/-- A list whose per-element counts are one less than those of `U` has as many
elements as the repeated elements of `U` have surplus occurrences. -/
theorem length_eq_sum_surplus (D U : List String)
    (h : ∀ s, D.count s = U.count s - 1) :
    D.length =
      ((U.dedup.filter (fun s => decide (1 < U.count s))).map (fun s => U.count s - 1)).sum := by
  have hperm : D.dedup.Perm (U.dedup.filter (fun s => decide (1 < U.count s))) := by
    rw [List.perm_ext_iff_of_nodup (List.nodup_dedup D) ((List.nodup_dedup U).filter _)]
    intro s
    have hs := h s
    rw [List.mem_dedup, List.mem_filter, List.mem_dedup, ← List.count_pos_iff,
      ← List.count_pos_iff (l := U)]
    simp only [decide_eq_true_eq]
    omega
  rw [← List.sum_map_count_dedup_eq_length D, (hperm.map _).sum_eq]
  congr 1
  apply List.map_congr_left
  intro s _
  exact h s

/-- C7: for every document with a `pages` array, each id is named by as many
duplicate-id diagnostics of `validateData` as it has occurrences beyond the first
among the pages with a usable id, and the number of duplicate-id diagnostics is the
sum of (occurrences - 1) over the ids that occur more than once; two pages sharing
one id give one diagnostic, naming that id. -/
theorem validateData_duplicate_count (sp : Val) (pages : List Entry) :
    (∀ s, (duplicateIds (validateData (.object ⟨sp, some pages⟩))).count s =
        (usableIds pages).count s - 1) ∧
      (duplicateIds (validateData (.object ⟨sp, some pages⟩))).length =
        (((usableIds pages).dedup.filter
            (fun s => decide (1 < (usableIds pages).count s))).map
          (fun s => (usableIds pages).count s - 1)).sum ∧
      duplicateIds (validateData (.object dupDoc)) = ["dup"] := by
  have hcount : ∀ s, (duplicateIds (validateData (.object ⟨sp, some pages⟩))).count s =
      (usableIds pages).count s - 1 := by
    intro s
    rw [duplicateIds_validateData, count_duplicateIds_idPass]
    have h0 : duplicateIds
        (if (sp.usableString?).isNone then [Diag.noStartPageId] else []) = [] := by
      split <;> rfl
    rw [h0]
    simp
  exact ⟨hcount, length_eq_sum_surplus _ _ hcount, by decide⟩

theorem ne_empty_of_mem_usableIds (pages : List Entry) (s : String)
    (h : s ∈ usableIds pages) : s ≠ "" := by
  obtain ⟨p, _, hp⟩ := List.mem_filterMap.mp h
  cases p with
  | null => simp [Entry.usableId?] at hp
  | prim t => simp [Entry.usableId?] at hp
  | object pg => exact (usableString_eq_some hp).2

/-- The first loop pushes nothing when every page object has a usable id and no
usable id is repeated or already collected. -/
theorem idPass_clean (pages : List Entry) :
    ∀ acc : List String × List Diag,
      (∀ pg, Entry.object pg ∈ pages → (pg.id.usableString?).isSome = true) →
      (usableIds pages).Nodup →
      (∀ s ∈ usableIds pages, s ∉ acc.1) →
      (idPass pages acc).2 = acc.2 := by
  induction pages with
  | nil => intro acc _ _ _; rfl
  | cons p ps ih =>
    intro acc hid hnd hdisj
    have hstep : idPass (p :: ps) acc = idPass ps (idStep acc p) := rfl
    have hid1 : ∀ pg, Entry.object pg ∈ ps → (pg.id.usableString?).isSome = true :=
      fun pg h => hid pg (List.mem_cons_of_mem _ h)
    rw [hstep]
    cases p with
    | null =>
      rw [usableIds_cons_none _ _ (rfl : Entry.null.usableId? = none)] at hnd hdisj
      exact ih acc hid1 hnd hdisj
    | prim t =>
      rw [usableIds_cons_none _ _ (rfl : (Entry.prim t).usableId? = none)] at hnd hdisj
      exact ih acc hid1 hnd hdisj
    | object pg =>
      cases hu : pg.id.usableString? with
      | none =>
        have := hid pg (List.mem_cons_self _ _)
        simp [hu] at this
      | some t =>
        rw [usableIds_cons_some _ _ t (show (Entry.object pg).usableId? = some t from hu)]
          at hnd hdisj
        have ht : t ∉ acc.1 := hdisj t (List.mem_cons_self _ _)
        have hacc : idStep acc (.object pg) = (setAdd acc.1 t, acc.2) := by
          simp [idStep, hu, ht]
        rw [hacc]
        have hnd1 := List.nodup_cons.mp hnd
        refine ih _ hid1 hnd1.2 ?_
        intro s hs hmem
        rcases (mem_setAdd acc.1 t s).mp hmem with h1 | h1
        · exact hdisj s (List.mem_cons_of_mem _ hs) h1
        · exact hnd1.1 (h1 ▸ hs)

/-- The `forEach` loop pushes nothing when every `next` is a collected id. -/
theorem choiceLoop_clean (ids : List String) (pid : Val) (cs : List Choice) :
    ∀ (idx : Nat) (errors : List Diag),
      (∀ c ∈ cs, ∃ s, c.next.usableString? = some s ∧ s ∈ ids) →
      choiceLoop ids pid cs idx errors = errors := by
  induction cs with
  | nil => intro idx errors _; rfl
  | cons c cs ih =>
    intro idx errors h
    obtain ⟨s, hs, hmem⟩ := h c (List.mem_cons_self _ _)
    have hc : choiceStep ids pid errors c idx = errors := by
      simp [choiceStep, hs, hmem]
    simp only [choiceLoop]
    rw [hc]
    exact ih _ _ (fun c1 h1 => h c1 (List.mem_cons_of_mem _ h1))

/-- One iteration of the second loop pushes nothing on a page that is a result
page without choices or a question page whose choices all lead to collected ids. -/
theorem linkStep_clean (ids : List String) (errors : List Diag) (p : Entry)
    (hq : ∀ pg, p = .object pg → isResult (.object pg) = false → pg.choices.getD [] ≠ [])
    (hr : ∀ pg, p = .object pg → isResult (.object pg) = true → pg.choices.getD [] = [])
    (hnext : ∀ pg, p = .object pg → ∀ c ∈ pg.choices.getD [],
      ∃ s, c.next.usableString? = some s ∧ s ∈ ids) :
    linkStep ids errors p = errors := by
  cases p with
  | null => rfl
  | prim t => rfl
  | object pg =>
    simp only [linkStep]
    split
    · rfl
    · split
      · next hres =>
        have h0 := hr pg rfl hres
        split
        · next c cs hc => simp [hc] at h0
        · rfl
      · next hres =>
        have hres1 : isResult (.object pg) = false := by simpa using hres
        have h0 := hq pg rfl hres1
        have hlen : (pg.choices.getD []).length ≠ 0 := by
          simpa [List.length_eq_zero] using h0
        rw [if_neg hlen]
        exact choiceLoop_clean ids pg.id _ 0 errors (hnext pg rfl)

theorem linkPass_clean (ids : List String) (pages : List Entry) (errors : List Diag)
    (h : ∀ p ∈ pages, linkStep ids errors p = errors) :
    linkPass ids pages errors = errors := by
  induction pages with
  | nil => rfl
  | cons p ps ih =>
    have hstep : linkPass ids (p :: ps) errors = linkPass ids ps (linkStep ids errors p) := rfl
    rw [hstep, h p (List.mem_cons_self _ _)]
    exact ih (fun q hq => h q (List.mem_cons_of_mem _ hq))

/-- C6 (counterexample): in `deadEndDoc` the single page has a usable id, every
`next` (there is none) and `startPageId` name that page, and `validateData`
returns a dead-end diagnostic. -/
theorem validateData_dead_end :
    (∀ p ∈ [questionPage "only" []], (Entry.usableId? p).isSome = true) ∧
      (usableIds [questionPage "only" []]).Nodup ∧
      (∀ p ∈ [questionPage "only" []], ∀ c ∈ Entry.choiceList p,
        c.next ∈ (usableIds [questionPage "only" []]).map Val.str) ∧
      deadEndDoc.startPageId ∈ (usableIds [questionPage "only" []]).map Val.str ∧
      deadEndDoc.pages = some [questionPage "only" []] ∧
      validateData (.object deadEndDoc) = [.deadEnd (.str "only")] := by
  decide

/-- C6 (amended): for every document whose page objects all have a non-empty string
id, pairwise distinct, in which every question page carries at least one choice and
every result page carries none, every choice's `next` is the id of a page and
`startPageId` is the id of a page, `validateData` returns an empty list. -/
theorem validateData_clean (sp : Val) (pages : List Entry)
    (hid : ∀ p ∈ pages, (Entry.usableId? p).isSome = true)
    (hnd : (usableIds pages).Nodup)
    (hq : ∀ p ∈ pages, isResult p = false → Entry.choiceList p ≠ [])
    (hr : ∀ p ∈ pages, isResult p = true → Entry.choiceList p = [])
    (hnext : ∀ p ∈ pages, ∀ c ∈ Entry.choiceList p,
      c.next ∈ (usableIds pages).map Val.str)
    (hstart : sp ∈ (usableIds pages).map Val.str) :
    validateData (.object ⟨sp, some pages⟩) = [] := by
  obtain ⟨s0, hmem0, hs0⟩ := List.mem_map.mp hstart
  have hs0 := hs0.symm
  have hsp : sp.usableString? = some s0 := by
    rw [hs0]
    exact usableString_str s0 (ne_empty_of_mem_usableIds pages s0 hmem0)
  have hids : ∀ s, s ∈ (idPass pages ([], [])).1 ↔ s ∈ usableIds pages := by
    intro s
    simp [mem_idPass]
  have herr : (idPass pages ([], [])).2 = [] :=
    idPass_clean pages ([], []) (fun pg hpg => hid _ hpg) hnd
      (fun _ _ h => absurd h (List.not_mem_nil _))
  have hlink : linkPass (idPass pages ([], [])).1 pages [] = [] := by
    apply linkPass_clean
    intro p hp
    apply linkStep_clean
    · intro pg hpg; subst hpg; exact hq _ hp
    · intro pg hpg; subst hpg; exact hr _ hp
    · intro pg hpg c hc
      subst hpg
      obtain ⟨s, hmem, hs⟩ := List.mem_map.mp (hnext _ hp c hc)
      refine ⟨s, ?_, (hids s).mpr hmem⟩
      rw [← hs]
      exact usableString_str s (ne_empty_of_mem_usableIds pages s hmem)
  simp only [validateData, hsp, Option.isNone_some, Bool.false_eq_true, if_false]
  rw [herr, hlink, if_pos ((hids s0).mpr hmem0)]

/-- Witness of C6: the document of scenario 1 of the specification. -/
theorem validateData_clean_witness :
    validateData (.object ⟨.str "start",
      some [questionPage "start" ["end1"], resultPage "end1"]⟩) = [] :=
  validateData_clean (.str "start") [questionPage "start" ["end1"], resultPage "end1"]
    (by decide) (by decide) (by decide) (by decide) (by decide) (by decide)

end Flow
